import Mathlib

/-!
Shallow embedding of the CCD calibration pipeline in
`src/Functions/calibration_functions.py` (Messier 67 lab).

Frames are 2D numeric arrays, modelled as `List (List ℚ)` in row-major
order (`fits.getdata` returns an array of shape `(NAXIS2, NAXIS1)` =
(rows, columns)).  NumPy float arithmetic is modelled exactly over ℚ;
the one place the pipeline can produce a non-finite float (dividing the
all-zero accumulator by a zero frame count, `0.0/0 = NaN`) is modelled
with `Option ℚ` entries (`none` = NaN).  Header overscan extents are
nonnegative integers, modelled as `Nat`.
-/

abbrev Mat := List (List ℚ)

/-- Number of columns of a row-major matrix: length of its first row
(the shape `(R, C)` of a rectangular NumPy array). -/
def numCols (m : Mat) : Nat := (m.head?.getD []).length

/-- The matrix is rectangular: every row has the common length.  NumPy
arrays are rectangular by construction. -/
def RectB (m : Mat) : Bool := m.all (fun r => r.length == numCols m)

/-- Entry accessor `m[i][j]` (0 outside bounds; theorems guard bounds). -/
def entry (m : Mat) (i j : Nat) : ℚ := ((m[i]?.getD [])[j]?).getD 0

/-- `np.zeros((r, c))`. -/
def zeros (r c : Nat) : Mat := List.replicate r (List.replicate c (0 : ℚ))

/-- Start index of the Python slice `a[L-cover:]` over an axis of
length `n`, as normalized by `slice(L-cover, None).indices(n)`: a
nonnegative start `L-cover` is clamped to `n`; a negative start counts
from the end and is clamped to 0.  `np.delete(a, np.s_[L-cover:], axis)`
keeps exactly the first `pySliceStart L cover n` entries of the axis
and never raises. -/
def pySliceStart (L cover n : Nat) : Nat :=
  if cover ≤ L then min (L - cover) n else n - min (cover - L) n

/-- Elementwise matrix addition (`+` on same-shape NumPy arrays; the
theorems only use it at matching shapes, where `zipWith` agrees with
NumPy broadcasting). -/
def madd (a b : Mat) : Mat := List.zipWith (List.zipWith (· + ·)) a b

/-- Elementwise matrix subtraction. -/
def msub (a b : Mat) : Mat := List.zipWith (List.zipWith (· - ·)) a b

/-- Elementwise matrix division (array / array). -/
def mdivM (a b : Mat) : Mat := List.zipWith (List.zipWith (· / ·)) a b

/-- Array divided by a scalar (`data / t`). -/
def sdiv (a : Mat) (t : ℚ) : Mat := a.map (List.map (· / t))

/-- One FITS file of a source directory: its file name and the header
fields `EXPTIME`, `CRDER2S`, `COVER`, `ROVER`, plus the pixel data.
`NAXIS1`/`NAXIS2` are implicit: headers are consistent with the data,
so `NAXIS1 = numCols data` and `NAXIS2 = data.length`. -/
structure FitsFile where
  name : String
  exptime : ℚ
  crder2s : ℚ
  cover : Nat
  rover : Nat
  data : Mat
deriving DecidableEq, Repr

/-- First list is a prefix of the second (on characters). -/
def startsWithL : List Char → List Char → Bool
  | [], _ => true
  | _ :: _, [] => false
  | a :: as, b :: bs => a == b && startsWithL as bs

/-- The pattern occurs as a contiguous substring of the second list. -/
def containsL (pat : List Char) : List Char → Bool
  | [] => pat.isEmpty
  | c :: t => startsWithL pat (c :: t) || containsL pat t

/-- The membership test `'fits' in file` on the file name: Python
substring containment. -/
def isFits (f : FitsFile) : Bool := containsL "fits".toList f.name.toList

/-- `overscan` (calibration_functions.py lines 47–65): reads COVER and
ROVER and deletes trailing slices,
`data = np.delete(data, np.s_[len(data[1])-cover:], 1)` then
`data = np.delete(data, np.s_[len(data[0])-rover:], 0)`.
Note the code takes `len(data[1])` (the length of row 1, i.e. the
column count) for the column slice and `len(data[0])` — the column
count of the already column-trimmed array, not the row count — for the
row slice. -/
def overscan (cover rover : Nat) (m : Mat) : Mat :=
  let w1 := (m[1]?.getD []).length
  let s1 := pySliceStart w1 cover (numCols m)
  let m1 := m.map (fun row => row.take s1)
  let w0 := (m1[0]?.getD []).length
  let s0 := pySliceStart w0 rover m1.length
  m1.take s0

/-- Overscan trim of a file's data using its own header extents. -/
def overTrim (f : FitsFile) : Mat := overscan f.cover f.rover f.data

/-- `empty_master` (lines 20–45): from the first fits file of the
directory, build `np.zeros((col-cover, row-rover))` where
`col = NAXIS1` (column count) and `row = NAXIS2` (row count); returns
`None` (here `none`) when the directory has no fits file.  (For extents
larger than the dimensions `np.zeros` would raise on a negative size;
`Nat` subtraction truncates instead — no claim exercises that case.) -/
def empty_master (files : List FitsFile) : Option Mat :=
  (files.find? isFits).map fun f =>
    zeros (numCols f.data - f.cover) (f.data.length - f.rover)

/-- Insert a value into an ascending-sorted list. -/
def insSorted (x : ℚ) : List ℚ → List ℚ
  | [] => [x]
  | y :: ys => if x ≤ y then x :: y :: ys else y :: insSorted x ys

/-- Ascending sort used by `np.median` / `np.percentile` (insertion
sort; only the sorted order matters). -/
def rsort (l : List ℚ) : List ℚ := l.foldr insSorted []

/-- `np.median` of a 1D collection: middle element of the sorted data,
or the average of the two middle elements for even length. -/
def listMedian (l : List ℚ) : ℚ :=
  let s := rsort l
  let n := s.length
  if n % 2 = 1 then (s[n / 2]?).getD 0
  else ((s[n / 2 - 1]?).getD 0 + (s[n / 2]?).getD 0) / 2

/-- Linear interpolation at fractional rank `h` into a sorted list:
`s[i] + (h-i)·(s[i+1] - s[i])` for `i = ⌊h⌋`, walking the list so that
no floor computation is needed (for `h` at or past the last index, the
last element). -/
def interpWalk : List ℚ → ℚ → ℚ
  | [], _ => 0
  | [x], _ => x
  | x :: y :: ys, h => if h < 1 then x + h * (y - x) else interpWalk (y :: ys) (h - 1)

/-- `np.percentile(l, q)` with the default linear interpolation: the
value at fractional rank `(n-1)·q/100` of the sorted data. -/
def pyPercentile (l : List ℚ) (q : ℚ) : ℚ :=
  interpWalk (rsort l) (((l.length : ℚ) - 1) * q / 100)

/-- The `index_list` of `remove_lines` (lines 340–345): for
`n in range(-5, 6)` try `data[row][col+n]`, skipping indices that raise
`IndexError`.  A negative `col+n` down to `-len(row)` is valid Python
indexing and wraps to the end of the row; only indices `≥ len(row)` or
`< -len(row)` raise and are skipped. -/
def pyWindow (row : List ℚ) (col : Nat) : List ℚ :=
  (List.range 11).filterMap fun k =>
    if 5 ≤ col + k then row[col + k - 5]?
    else if 5 - (col + k) ≤ row.length then row[row.length - (5 - (col + k))]?
    else none

/-- `np.sum(data, axis=0)`: the column-sum profile of the image. -/
def colSums (m : Mat) : List ℚ :=
  (List.range (numCols m)).map fun j => (m.map fun row => (row[j]?).getD 0).sum

/-- Indices of the columns whose sum is strictly above the `max_lim`
percentile of the profile (lines 329 and 333). -/
def brightCols (m : Mat) (maxLim : ℚ) : List Nat :=
  (List.range (numCols m)).filter fun j =>
    pyPercentile (colSums m) maxLim < ((colSums m)[j]?).getD 0

/-- Indices of the columns whose sum is strictly below the `min_lim`
percentile of the profile (lines 331 and 334). -/
def darkCols (m : Mat) (minLim : ℚ) : List Nat :=
  (List.range (numCols m)).filter fun j =>
    ((colSums m)[j]?).getD 0 < pyPercentile (colSums m) minLim

/-- In-place repair of one flagged column (lines 338–346): every row
gets `data[row][col] = np.median(index_list)`.  The window of a row
reads only that row, and `data[row][col]` itself is read (offset `n=0`)
before it is overwritten, so rows are independent within one column;
columns flagged earlier have already been rewritten. -/
def replaceCol (m : Mat) (col : Nat) : Mat :=
  m.map fun row => row.set col (listMedian (pyWindow row col))

/-- `remove_lines(img, max_lim=95, min_lim=10)` (lines 301–347): copy
the image (`img.copy()`, so the input array is never mutated), flag
bright then dark columns from the column-sum profile of the original
data, and repair the flagged columns sequentially. -/
def remove_lines (img : Mat) (maxLim minLim : ℚ) : Mat :=
  (brightCols img maxLim ++ darkCols img minLim).foldl replaceCol img

/-- Modelled from the words of claim C2 / spec §4.5, for comparison
with the code: the median of the same-row pixels at column offsets
−5…+5 where offsets falling outside the array bounds are omitted from
the median and never wrap to the opposite edge. -/
def specClipMedian (row : List ℚ) (col : Nat) : ℚ :=
  listMedian ((List.range 11).filterMap fun k =>
    if 5 ≤ col + k ∧ col + k - 5 < row.length then row[col + k - 5]? else none)

/-- Values of a sigma-clipped masked array that are not masked
(`matrix` and `mask` read in parallel). -/
def maskedVals (m : Mat) (mask : List (List Bool)) : List ℚ :=
  (m.flatten.zip mask.flatten).filterMap fun p => if p.2 then none else some p.1

/-- Mean of a 1D collection (`np.ma.mean` over the unmasked data). -/
def listMean (l : List ℚ) : ℚ := l.sum / l.length

/-- Population variance (`np.ma.std` squared, `ddof=0`), taken about
the mean of the data. -/
def listVar (l : List ℚ) : ℚ := (l.map fun x => (x - listMean l) ^ 2).sum / l.length

/-- Minimum of a 1D collection (`np.amin`; 0 for the empty list, which
no claim exercises). -/
def listMin : List ℚ → ℚ
  | [] => 0
  | x :: xs => xs.foldl min x

/-- One iteration of `astropy.stats.sigma_clip`: compute the center
(median, the default `cenfunc`) and the standard deviation of the
currently unmasked values and additionally mask every value farther
than `sigma` standard deviations from the center.  The comparison
`|x - c| > sigma·s` is phrased as `(x - c)² > sigma²·s²` so that it is
exact over ℚ. -/
def clipStep (sigma : ℚ) (m : Mat) (mask : List (List Bool)) : List (List Bool) :=
  let vals := maskedVals m mask
  let c := listMedian vals
  let v := listVar vals
  List.zipWith (fun row mrow =>
    List.zipWith (fun x b => b || decide (sigma ^ 2 * v < (x - c) ^ 2)) row mrow) m mask

/-- The mask produced by `sigma_clip(data, sigma)` (default
`maxiters=5`; every concrete input below reaches a fixpoint after one
iteration).  `sigma_clip` returns `data` unchanged together with this
mask. -/
def sigmaClipMask (sigma : ℚ) (m : Mat) : List (List Bool) :=
  clipStep sigma m (clipStep sigma m (clipStep sigma m (clipStep sigma m
    (clipStep sigma m (m.map (List.map fun _ => false))))))

/-- Possible Python-level failures of a master build. -/
inductive PyErr where
  | typeError
deriving DecidableEq, Repr

/-- `get_bias` (lines 67–114).  `empty_master` returning `None` makes
the final `master_bias/count` raise `TypeError` (`.error`).  Qualifying
frames (`'fits' in file` and `EXPTIME == 0`) are overscan-trimmed,
sigma-clipped and accumulated.  `sigma_clip` only wraps the data in a
masked array; the in-place `master_bias += data` is a NumPy ufunc with
a plain-ndarray output, which operates on the raw `.data` buffer and
discards the mask, so the raw trimmed values are what accumulates.
The final division by `count` is `0.0/0 = NaN` (`none`) in every entry
when no frame qualified. -/
def get_bias (files : List FitsFile) : Except PyErr (List (List (Option ℚ))) :=
  match empty_master files with
  | none => .error .typeError
  | some m0 =>
    let st := files.foldl (fun st f =>
      if isFits f ∧ f.exptime = 0 then (madd st.1 (overTrim f), st.2 + 1) else st)
      ((m0, 0) : Mat × Nat)
    .ok (st.1.map fun row => row.map fun x =>
      if st.2 = 0 then none else some (x / (st.2 : ℚ)))

/-- Per-frame term of `get_dark` (lines 144–160): overscan-trimmed data
minus the master bias, divided by the frame's own `EXPTIME` — with no
check on the exposure time.  (`sigma_clip` is applied before the
accumulation but, as in `get_bias`, the in-place `+=` discards the
mask.) -/
def darkTerm (f : FitsFile) (bias : Mat) : Mat :=
  sdiv (msub (overTrim f) bias) f.exptime

/-- Accumulator and frame count of `get_dark` (lines 144–162): every
fits file is accumulated, whatever its exposure time. -/
def get_dark_acc (files : List FitsFile) (bias : Mat) : Mat × Nat :=
  files.foldl (fun st f =>
    if isFits f then (madd st.1 (darkTerm f bias), st.2 + 1) else st)
    ((empty_master files).getD [], 0)

/-- `get_dark`: the averaged accumulator. -/
def get_dark (files : List FitsFile) (bias : Mat) : Mat :=
  sdiv (get_dark_acc files bias).1 ((get_dark_acc files bias).2 : ℚ)

/-- Corrected flat frame (line 218): `((data - bias)/time) - dark`. -/
def corrFlat (f : FitsFile) (bias dark : Mat) : Mat :=
  msub (sdiv (msub (overTrim f) bias) f.exptime) dark

/-- `np.amin(data)` for the sigma-clipped corrected flat frame: the
minimum of the unmasked values (`np.amin` respects the mask of a masked
array). -/
def aminFlat (f : FitsFile) (bias dark : Mat) : ℚ :=
  listMin (maskedVals (corrFlat f bias dark) (sigmaClipMask 5 (corrFlat f bias dark)))

/-- The frame `get_flat` accumulates (line 222): the corrected frame
divided by its own minimum, `data/np.amin(data)`.  The division is
applied to the raw data; the mask is carried along unchanged and then
discarded by the in-place `+=`. -/
def flatNorm (f : FitsFile) (bias dark : Mat) : Mat :=
  sdiv (corrFlat f bias dark) (aminFlat f bias dark)

/-- Accumulator and frame count of `get_flat` (lines 206–224): every
fits file is accumulated, whatever its exposure time. -/
def get_flat_acc (files : List FitsFile) (bias dark : Mat) : Mat × Nat :=
  files.foldl (fun st f =>
    if isFits f then (madd st.1 (flatNorm f bias dark), st.2 + 1) else st)
    ((empty_master files).getD [], 0)

/-- `get_flat`: the averaged accumulator. -/
def get_flat (files : List FitsFile) (bias dark : Mat) : Mat :=
  sdiv (get_flat_acc files bias dark).1 ((get_flat_acc files bias dark).2 : ℚ)

/-- Calibrated science frame (lines 283–287):
`(((data - bias)/time) - dark)/flat` on the overscan-trimmed data,
passed through `remove_lines` with its default thresholds (95, 10); no
sigma clipping is applied.  The frame's own `EXPTIME` divides the data
with no check. -/
def calScience (f : FitsFile) (bias dark flat : Mat) : Mat :=
  remove_lines (mdivM (msub (sdiv (msub (overTrim f) bias) f.exptime) dark) flat) 95 10

/-- `get_science` (lines 233–299): for every fits file of the
directory, in order, append `[file, data]` — the file name and the
calibrated array.  The header's `CRDER2S` error estimate is read into
`error` but only written into the optional on-disk FITS header; it is
not part of the returned list. -/
def get_science (files : List FitsFile) (bias dark flat : Mat) : List (String × Mat) :=
  files.foldl (fun acc f =>
    if isFits f then acc ++ [(f.name, calScience f bias dark flat)] else acc) []

/-- Decidable equality of build results, for evaluating `get_bias` at
concrete directories. -/
instance {ε α : Type} [DecidableEq ε] [DecidableEq α] : DecidableEq (Except ε α) := by
  intro a b
  cases a with
  | error e =>
    cases b with
    | error e2 => exact decidable_of_iff (e = e2) (by constructor <;> (intro h; simp_all))
    | ok v2 => exact isFalse (by intro h; exact Except.noConfusion h)
  | ok v =>
    cases b with
    | error e2 => exact isFalse (by intro h; exact Except.noConfusion h)
    | ok v2 => exact decidable_of_iff (v = v2) (by constructor <;> (intro h; simp_all))

/-- Entry `(i, j)` of a `get_bias` result (`none` when the build raised). -/
def biasEntry (r : Except PyErr (List (List (Option ℚ)))) (i j : Nat) : Option (Option ℚ) :=
  match r with
  | .error _ => none
  | .ok m => (m[i]?.getD [])[j]?

/-- A 2×4 raw frame (R = 2 rows, C = 4 columns). -/
def M1 : Mat := [[1, 2, 3, 4], [5, 6, 7, 8]]

/-- A 2×8 image whose column-sum profile flags exactly column 0 as
bright (sums `[200, 10, …, 10]`) and no column as dark. -/
def M2 : Mat := [[100, 9, 9, 0, 0, 0, 0, 0], [100, 1, 1, 10, 10, 10, 10, 10]]

/-- A second 2×8 image flagging exactly column 0 (sums `[10, 2, …, 2]`). -/
def MW : Mat := [[5, 1, 1, 1, 1, 1, 1, 1], [5, 1, 1, 1, 1, 1, 1, 1]]

/-- A 6×6 frame of ones. -/
def ones66 : Mat := List.replicate 6 (List.replicate 6 1)

/-- The 6×6 frame of ones with pixel (0,0) injected to 1000 — a single
pixel 1000× the magnitude of the others, farther than 5 standard
deviations from the frame's mean. -/
def outl66 : Mat := ((1000 : ℚ) :: List.replicate 5 1) :: List.replicate 5 (List.replicate 6 1)

/-- Zero-exposure 6×6 bias frames used for claim C5. -/
def fBiasA : FitsFile := ⟨"bias1.fits", 0, 0, 0, 0, ones66⟩

/-- Second clean bias frame. -/
def fBiasB : FitsFile := ⟨"bias2.fits", 0, 0, 0, 0, ones66⟩

/-- The second bias frame with the injected outlier pixel. -/
def fBiasOut : FitsFile := ⟨"bias2.fits", 0, 0, 0, 0, outl66⟩

/-- A fits file with nonzero exposure time, not a bias frame. -/
def fDark1 : FitsFile := ⟨"dark1.fits", 1, 0, 0, 0, [[1, 2], [3, 4]]⟩

/-- A second non-bias fits file, 3×3 with exposure 2. -/
def fDark2 : FitsFile := ⟨"dark2.fits", 2, 0, 0, 0, [[1, 2, 3], [4, 5, 6], [7, 8, 9]]⟩

/-- A 4-row × 6-column frame with overscan extents cover = 1, rover = 2
(values 1…24). -/
def f46 : FitsFile :=
  ⟨"sci1.fits", 1, 0, 1, 2,
    [[1, 2, 3, 4, 5, 6], [7, 8, 9, 10, 11, 12],
     [13, 14, 15, 16, 17, 18], [19, 20, 21, 22, 23, 24]]⟩

/-- 2×2 zero master. -/
def z22 : Mat := [[0, 0], [0, 0]]

/-- 2×2 master flat of ones. -/
def ones22 : Mat := [[1, 1], [1, 1]]

/-- A flat frame whose corrected data has a negative minimum (−2). -/
def flatNeg : FitsFile := ⟨"flat1.fits", 1, 0, 0, 0, [[-2, 10], [3, 4]]⟩

/-- A flat frame whose corrected data has positive minimum 2. -/
def flatPos : FitsFile := ⟨"flat2.fits", 1, 0, 0, 0, [[2, 4], [6, 8]]⟩

/-- A science frame with error estimate `CRDER2S = 7`. -/
def sci1 : FitsFile := ⟨"sci.fits", 1, 7, 0, 0, [[1, 2], [3, 4]]⟩

/-- The same science frame with error estimate `CRDER2S = 8`. -/
def sci2 : FitsFile := ⟨"sci.fits", 1, 8, 0, 0, [[1, 2], [3, 4]]⟩

/-- A zero-exposure fits file fed to the dark/flat/science builders. -/
def fZero : FitsFile := ⟨"zero.fits", 0, 5, 0, 0, [[1, 2], [3, 4]]⟩

/-! ## General lemmas about the embedded operations -/

theorem pySliceStart_le (L cover n : Nat) : pySliceStart L cover n ≤ n := by
  unfold pySliceStart
  split
  · exact min_le_right _ _
  · exact Nat.sub_le _ _

theorem rect_row_len {m : Mat} (hrect : RectB m = true) {row : List ℚ}
    (hmem : row ∈ m) : row.length = numCols m := by
  have h := List.all_eq_true.mp hrect row hmem
  exact beq_iff_eq.mp h

/-- Shape of `overscan` on a rectangular frame with at least two rows:
the columns kept are `pySliceStart C cover C` of the `C` columns, and
the rows kept are `pySliceStart (pySliceStart C cover C) rover R` of
the `R` rows — the row slice is computed from the trimmed column count,
not from the row count. -/
theorem overscan_shape (m : Mat) (cover rover : Nat)
    (hrect : RectB m = true) (h2 : 2 ≤ m.length) :
    (overscan cover rover m).length =
      pySliceStart (pySliceStart (numCols m) cover (numCols m)) rover m.length ∧
    ∀ row ∈ overscan cover rover m,
      row.length = pySliceStart (numCols m) cover (numCols m) := by
  have h1 : 1 < m.length := h2
  have h0 : 0 < m.length := Nat.lt_of_lt_of_le Nat.zero_lt_two h2
  have hw1 : (m[1]?.getD []).length = numCols m := by
    rw [List.getElem?_eq_getElem h1]
    exact rect_row_len hrect (List.getElem_mem h1)
  have hr0 : m[0]? = some m[0] := List.getElem?_eq_getElem h0
  have hl0 : (m[0]).length = numCols m := rect_row_len hrect (List.getElem_mem h0)
  have hs1le : pySliceStart (numCols m) cover (numCols m) ≤ numCols m :=
    pySliceStart_le _ _ _
  have hw0 : ((m.map fun row =>
      row.take (pySliceStart (numCols m) cover (numCols m)))[0]?.getD []).length =
      pySliceStart (numCols m) cover (numCols m) := by
    rw [List.getElem?_map, hr0]
    simp only [Option.map_some', Option.getD_some, List.length_take]
    rw [hl0]
    exact min_eq_left hs1le
  simp only [overscan, hw1, hw0, List.length_map]
  constructor
  · rw [List.length_take, List.length_map]
    exact min_eq_left (pySliceStart_le _ _ _)
  · intro row hrow
    have hrow2 : row ∈ m.map fun r =>
        r.take (pySliceStart (numCols m) cover (numCols m)) := List.mem_of_mem_take hrow
    obtain ⟨r, hr, hrweq⟩ := List.mem_map.mp hrow2
    rw [← hrweq, List.length_take, rect_row_len hrect hr]
    exact min_eq_left hs1le

/-! ## C1: overscan trimming does not produce shape (R−rover, C−cover) -/

/-- Claim C1 (code_bug evaluation): on the 2×4 frame `M1` with
`cover = 0`, `rover = 1` (both extents within the dimensions), the
claimed output shape is `(R−rover, C−cover) = (1, 4)`, but `overscan`
returns `M1` unchanged — 2 rows — because the row slice start is taken
from `len(data[0])`, the column count 4, so `np.s_[3:]` deletes nothing
from the 2 rows.  Not a single row is removed. -/
theorem c1_overscan_row_slice_bug :
    overscan 0 1 M1 = M1 ∧ M1.length = 2 ∧ numCols M1 = 4 ∧
    ¬ (overscan 0 1 M1).length = M1.length - 1 := by
  decide

/-! ## C4: out-of-range extents do not fail -/

/-- Claim C4 counterexample: a declared `cover = 6` exceeding the
column count 4 of the 2×4 frame `M1` does not make `overscan` fail with
`MalformedFrameError` (no such failure exists in the code): the
negative slice start `4 − 6 = −2` wraps Python-style, the last two
columns are deleted, and a 2×2 array is returned. -/
theorem c4_counterexample : overscan 6 0 M1 = [[1, 2], [5, 6]] := by
  decide

/-- Claim C4 amended: when the declared `cover` exceeds the column
count, overscan trimming never fails; it returns an array whose shape
is fixed by Python slice normalization — `pySliceStart C cover C`
columns (the negative start counts from the end) and
`pySliceStart (pySliceStart C cover C) rover R` rows. -/
theorem c4_amended_no_failure (m : Mat) (cover rover : Nat)
    (hrect : RectB m = true) (h2 : 2 ≤ m.length) (_hc : numCols m < cover) :
    (overscan cover rover m).length =
      pySliceStart (pySliceStart (numCols m) cover (numCols m)) rover m.length ∧
    ∀ row ∈ overscan cover rover m,
      row.length = pySliceStart (numCols m) cover (numCols m) :=
  overscan_shape m cover rover hrect h2

/-- Witness for C4: the 2×4 frame `M1` with `cover = 6 > 4`: the result
has `pySliceStart 4 6 4 = 2` columns in each of its
`pySliceStart 2 0 2 = 2` rows. -/
theorem c4_no_failure_witness :
    RectB M1 = true ∧ 2 ≤ M1.length ∧ numCols M1 < 6 ∧
    ((overscan 6 0 M1).length =
        pySliceStart (pySliceStart (numCols M1) 6 (numCols M1)) 0 M1.length ∧
      ∀ row ∈ overscan 6 0 M1,
        row.length = pySliceStart (numCols M1) 6 (numCols M1)) :=
  ⟨by decide, by decide, by decide, c4_amended_no_failure M1 6 0 (by decide) (by decide) (by decide)⟩

/-! ## C7: accumulator shape vs trimmed frame shape -/

/-- Claim C7 (code_bug evaluation): for the 4×6 frame `f46` with
`cover = 1`, `rover = 2`, the accumulator created by `empty_master` is
`np.zeros((NAXIS1−COVER, NAXIS2−ROVER))` = 5×2 — axes swapped relative
to the data — while the overscan-trimmed frame is 3×5 and the shape the
claim demands, `(R−rover, C−cover)`, is 2×5.  All three disagree, so
`master += data` is not an addition of same-shaped arrays (NumPy raises
`ValueError`). -/
theorem c7_shape_mismatch :
    empty_master [f46] = some (zeros 5 2) ∧
    (overTrim f46).length = 3 ∧ numCols (overTrim f46) = 5 ∧
    f46.data.length - f46.rover = 2 ∧ numCols f46.data - f46.cover = 5 ∧
    ¬ (zeros 5 2).length = (overTrim f46).length := by
  decide

/-! ## C2: the repair window wraps at the left edge -/

theorem M2_bright : brightCols M2 95 = [0] := by
  norm_num [M2, brightCols, colSums, numCols, pyPercentile, rsort, insSorted,
    interpWalk, List.range_succ]

theorem M2_dark : darkCols M2 10 = [] := by
  norm_num [M2, darkCols, colSums, numCols, pyPercentile, rsort, insSorted,
    interpWalk, List.range_succ]

/-- Rows of the repaired image when exactly one column is flagged: the
single `replaceCol` pass sets column `c` of every row to the median of
that row's Python-indexed window and touches nothing else; every median
is computed from the original array. -/
theorem single_col_repair (m : Mat) (qmax qmin : ℚ) (c r : Nat)
    (hflag : brightCols m qmax ++ darkCols m qmin = [c]) (hr : r < m.length) :
    (remove_lines m qmax qmin)[r]? =
      some ((m[r]?.getD []).set c (listMedian (pyWindow (m[r]?.getD []) c))) := by
  unfold remove_lines
  rw [hflag]
  show (replaceCol m c)[r]? = _
  unfold replaceCol
  rw [List.getElem?_map, List.getElem?_eq_getElem hr]
  simp only [Option.map_some', Option.getD_some]

/-- Claim C2 counterexample: in the 2×8 image `M2` exactly column 0 is
flagged.  The code repairs pixel (0,0) to 0 — the median of the
Python-indexed window `[0,0,0,0,0,100,9,9,0,0,0]`, whose five negative
offsets wrap to columns 3…7 — while the claimed clipped window
`[100,9,9,0,0,0]` (out-of-range offsets omitted, never wrapped) has
median 9/2. -/
theorem c2_counterexample :
    brightCols M2 95 ++ darkCols M2 10 = [0] ∧
    entry (remove_lines M2 95 10) 0 0 = 0 ∧
    specClipMedian (M2[0]?.getD []) 0 = 9 / 2 ∧
    ¬ ((0 : ℚ) = 9 / 2) := by
  have hflag : brightCols M2 95 ++ darkCols M2 10 = [0] := by
    rw [M2_bright, M2_dark]
    rfl
  refine ⟨hflag, ?_, ?_, by norm_num⟩
  · have h := single_col_repair M2 95 10 0 0 hflag (by decide)
    unfold entry
    rw [h]
    norm_num [M2, pyWindow, listMedian, rsort, insSorted, List.filterMap_cons,
      List.range_succ]
  · norm_num [M2, specClipMedian, listMedian, rsort, insSorted, List.filterMap_cons,
      List.range_succ]

/-- Claim C2 amended: the artifact remover replaces each pixel of a
flagged column with the median of the same-row pixels at column offsets
−5…+5 under Python indexing — offsets past the right edge are omitted,
but offsets reaching before the left edge wrap to the opposite edge of
the row (possibly duplicating in-range pixels) — and, when exactly one
column is flagged, each median is taken over the original array and no
other entry changes. -/
theorem c2_amended_window_wraps (m : Mat) (qmax qmin : ℚ) (c r : Nat)
    (hflag : brightCols m qmax ++ darkCols m qmin = [c]) (hr : r < m.length) :
    (remove_lines m qmax qmin)[r]? =
      some ((m[r]?.getD []).set c (listMedian (pyWindow (m[r]?.getD []) c))) :=
  single_col_repair m qmax qmin c r hflag hr

/-- Witness for C2 at the 2×8 image `MW`, whose only flagged column is
column 0. -/
theorem c2_window_witness :
    (brightCols MW 95 ++ darkCols MW 10 = [0] ∧ 0 < MW.length) ∧
    (remove_lines MW 95 10)[0]? =
      some ((MW[0]?.getD []).set 0 (listMedian (pyWindow (MW[0]?.getD []) 0))) := by
  have hflag : brightCols MW 95 ++ darkCols MW 10 = [0] := by
    norm_num [MW, brightCols, darkCols, colSums, numCols, pyPercentile, rsort,
      insSorted, interpWalk, List.range_succ]
  exact ⟨⟨hflag, by decide⟩, c2_amended_window_wraps MW 95 10 0 0 hflag (by decide)⟩

/-! ## C9: non-flagged columns are preserved -/

/-- Repairing any list of flagged columns leaves every other column's
entries untouched. -/
theorem cols_not_flagged_preserved (L : List Nat) :
    ∀ (m : Mat) (j r : Nat), j ∉ L →
      ((L.foldl replaceCol m)[r]?.getD [])[j]? = ((m[r]?.getD [])[j]?) := by
  induction L with
  | nil => intro m j r _; rfl
  | cons c t ih =>
    intro m j r hj
    have hjc : j ≠ c := fun h => hj (h ▸ List.mem_cons_self c t)
    have hjt : j ∉ t := fun h => hj (List.mem_cons_of_mem c h)
    show ((t.foldl replaceCol (replaceCol m c))[r]?.getD [])[j]? = _
    rw [ih (replaceCol m c) j r hjt]
    unfold replaceCol
    rw [List.getElem?_map]
    cases hm : m[r]? with
    | none => rfl
    | some row =>
      simp only [Option.map_some', Option.getD_some]
      exact List.getElem?_set_ne (Ne.symm hjc)

/-- Claim C9: `remove_lines` copies its input (`img.copy()`) and writes
only flagged columns, so in the returned array every column that is
neither strictly above the upper percentile nor strictly below the
lower percentile of the column-sum profile is bit-identical to the
input column. -/
theorem c9_unflagged_columns_preserved (m : Mat) (qmax qmin : ℚ) (j r : Nat)
    (hb : j ∉ brightCols m qmax) (hd : j ∉ darkCols m qmin) :
    ((remove_lines m qmax qmin)[r]?.getD [])[j]? = ((m[r]?.getD [])[j]?) := by
  unfold remove_lines
  refine cols_not_flagged_preserved _ m j r ?_
  intro hmem
  rcases List.mem_append.mp hmem with h | h
  · exact hb h
  · exact hd h

/-- Witness for C9: column 3 of `M2` is not flagged (the flags are
bright = [0], dark = []) and survives `remove_lines` unchanged in both
rows. -/
theorem c9_preserved_witness :
    (3 ∉ brightCols M2 95 ∧ 3 ∉ darkCols M2 10) ∧
    ((remove_lines M2 95 10)[1]?.getD [])[3]? = ((M2[1]?.getD [])[3]?) := by
  have hb : (3 : Nat) ∉ brightCols M2 95 := by rw [M2_bright]; decide
  have hd : (3 : Nat) ∉ darkCols M2 10 := by rw [M2_dark]; decide
  exact ⟨⟨hb, hd⟩, c9_unflagged_columns_preserved M2 95 10 3 1 hb hd⟩

/-! ## C3: the returned science list carries no error estimate -/

/-- Unfolding of the `get_science` loop: the result is the input
accumulator followed by one `(file name, calibrated array)` pair per
fits file, in directory order. -/
theorem sci_fold (bias dark flat : Mat) (l : List FitsFile) :
    ∀ acc : List (String × Mat),
      l.foldl (fun acc f =>
          if isFits f then acc ++ [(f.name, calScience f bias dark flat)] else acc) acc
        = acc ++ l.filterMap fun g =>
            if isFits g then some (g.name, calScience g bias dark flat) else none := by
  induction l with
  | nil => intro acc; simp
  | cons f t ih =>
    intro acc
    by_cases h : isFits f = true
    · simp only [List.foldl_cons, h, if_true, List.filterMap_cons, ih, List.append_assoc]
      rfl
    · simp only [List.foldl_cons, h, if_false, List.filterMap_cons, ih]
      simp [h]

/-- Claim C3 amended: `get_science` returns, per fits file, exactly the
pair `(file name, remove_lines ((((trimmed − bias)/EXPTIME) − dark)/flat))`
with no outlier rejection; the error estimate `CRDER2S` is not part of
the returned list — changing it anywhere changes nothing in the
result (it is only written into the optional saved FITS header). -/
theorem c3_amended_no_error_tag (files pre post : List FitsFile) (f : FitsFile)
    (e : ℚ) (bias dark flat : Mat) :
    get_science files bias dark flat
      = (files.filterMap fun g =>
          if isFits g then some (g.name, calScience g bias dark flat) else none) ∧
    get_science (pre ++ {f with crder2s := e} :: post) bias dark flat
      = get_science (pre ++ f :: post) bias dark flat := by
  have key : ∀ l : List FitsFile, get_science l bias dark flat
      = l.filterMap fun g =>
          if isFits g then some (g.name, calScience g bias dark flat) else none := by
    intro l
    show l.foldl _ [] = _
    rw [sci_fold]
    rfl
  refine ⟨key files, ?_⟩
  rw [key, key, List.filterMap_append, List.filterMap_append,
    List.filterMap_cons, List.filterMap_cons]
  rfl

/-- Claim C3 counterexample: two science directories identical except
for the error estimate (`CRDER2S` 7 in `sci1` vs 8 in `sci2`) produce
the very same returned list — the calibrated arrays are not tagged with
their error estimate. -/
theorem c3_counterexample :
    get_science [sci1] z22 z22 ones22 = get_science [sci2] z22 z22 ones22 ∧
    ¬ sci1.crder2s = sci2.crder2s := by
  exact ⟨rfl, by decide⟩

/-! ## C10: no exposure-time check outside get_bias -/

/-- The `get_dark` loop counts every fits file, with no condition on
the exposure time. -/
theorem dark_count_fold (bias : Mat) (l : List FitsFile) :
    ∀ st : Mat × Nat,
      (l.foldl (fun st f =>
          if isFits f then (madd st.1 (darkTerm f bias), st.2 + 1) else st) st).2
        = st.2 + (l.filter fun f => isFits f).length := by
  induction l with
  | nil => intro st; simp
  | cons f t ih =>
    intro st
    by_cases h : isFits f = true
    · simp only [List.foldl_cons, h, if_true, ih, List.filter_cons, List.length_cons]
      omega
    · simp only [List.foldl_cons, h, if_false, ih, List.filter_cons]
      simp [h]

/-- The `get_flat` loop counts every fits file, with no condition on
the exposure time. -/
theorem flat_count_fold (bias dark : Mat) (l : List FitsFile) :
    ∀ st : Mat × Nat,
      (l.foldl (fun st f =>
          if isFits f then (madd st.1 (flatNorm f bias dark), st.2 + 1) else st) st).2
        = st.2 + (l.filter fun f => isFits f).length := by
  induction l with
  | nil => intro st; simp
  | cons f t ih =>
    intro st
    by_cases h : isFits f = true
    · simp only [List.foldl_cons, h, if_true, ih, List.filter_cons, List.length_cons]
      omega
    · simp only [List.foldl_cons, h, if_false, ih, List.filter_cons]
      simp [h]

/-- Claim C10: `get_dark`, `get_flat` and `get_science` accumulate
every fits file of their directory without any exposure-time check — a
frame with `EXPTIME = 0` is processed like any other, its data divided
by its exposure time (`darkTerm`, `flatNorm`, `calScience`) with no
guard. -/
theorem c10_no_exposure_guard (files : List FitsFile) (f : FitsFile)
    (bias dark flat : Mat) (hf : isFits f = true) :
    (get_dark_acc (files ++ [f]) bias).2 = (get_dark_acc files bias).2 + 1 ∧
    (get_flat_acc (files ++ [f]) bias dark).2 = (get_flat_acc files bias dark).2 + 1 ∧
    get_science (files ++ [f]) bias dark flat
      = get_science files bias dark flat ++ [(f.name, calScience f bias dark flat)] := by
  refine ⟨?_, ?_, ?_⟩
  · unfold get_dark_acc
    rw [dark_count_fold, dark_count_fold, List.filter_append]
    simp [hf]
  · unfold get_flat_acc
    rw [flat_count_fold, flat_count_fold, List.filter_append]
    simp [hf]
  · unfold get_science
    rw [List.foldl_append]
    simp only [List.foldl_cons, List.foldl_nil, hf, if_true]

/-- Witness for C10: the zero-exposure fits file `fZero` is still
counted by the dark and flat builders and still calibrated by
`get_science` — no guard rejects `EXPTIME = 0`. -/
theorem c10_no_exposure_guard_witness :
    isFits fZero = true ∧
    ((get_dark_acc ([] ++ [fZero]) z22).2 = (get_dark_acc [] z22).2 + 1 ∧
      (get_flat_acc ([] ++ [fZero]) z22 z22).2 = (get_flat_acc [] z22 z22).2 + 1 ∧
      get_science ([] ++ [fZero]) z22 z22 ones22
        = get_science [] z22 z22 ones22 ++ [(fZero.name, calScience fZero z22 z22 ones22)]) :=
  ⟨by decide, c10_no_exposure_guard [] fZero z22 z22 ones22 (by decide)⟩

/-! ## C6: an empty or non-qualifying directory is not surfaced -/

/-- When no frame qualifies (every fits file has nonzero exposure
time), the `get_bias` loop leaves the accumulator and the count
untouched. -/
theorem bias_fold_skip (l : List FitsFile)
    (h : ∀ f ∈ l, isFits f = true → ¬ f.exptime = 0) :
    ∀ st : Mat × Nat,
      l.foldl (fun st f =>
        if isFits f ∧ f.exptime = 0 then (madd st.1 (overTrim f), st.2 + 1) else st) st
        = st := by
  induction l with
  | nil => intro st; rfl
  | cons f t ih =>
    intro st
    have hcond : ¬ (isFits f = true ∧ f.exptime = 0) := by
      rintro ⟨h1, h2⟩
      exact h f (List.mem_cons_self f t) h1 h2
    show t.foldl _ (if isFits f ∧ f.exptime = 0 then _ else st) = st
    rw [if_neg hcond]
    exact ih (fun g hg => h g (List.mem_cons_of_mem f hg)) st

/-- Claim C6 amended: when the directory contains fits files but none
qualifies as a bias frame (all exposure times nonzero), `get_bias` does
not fail with any `EmptyDirectoryError`-class error: the count stays 0,
the accumulator divided by it is `0.0/0 = NaN` in every entry, and the
all-NaN array (shaped by `empty_master` from the first fits header) is
returned silently.  (Only a directory with no fits file at all crashes,
with a `TypeError` from `None/count`.) -/
theorem c6_amended_silent_nan (files : List FitsFile) (f₀ : FitsFile)
    (hfind : files.find? isFits = some f₀)
    (hall : ∀ f ∈ files, isFits f = true → ¬ f.exptime = 0) :
    get_bias files = .ok (List.replicate (numCols f₀.data - f₀.cover)
      (List.replicate (f₀.data.length - f₀.rover) (none : Option ℚ))) := by
  have hE : empty_master files
      = some (zeros (numCols f₀.data - f₀.cover) (f₀.data.length - f₀.rover)) := by
    unfold empty_master
    rw [hfind]
    rfl
  have hsk := bias_fold_skip files hall
    (zeros (numCols f₀.data - f₀.cover) (f₀.data.length - f₀.rover), 0)
  simp only [get_bias, hE, hsk]
  simp [zeros, List.map_replicate]

/-- Claim C6 counterexample: the directory `[fDark1]` holds one fits
file with `EXPTIME = 1` — no qualifying bias frame — and `get_bias`
silently returns the 2×2 all-NaN array instead of failing with an
`EmptyDirectoryError`-class error. -/
theorem c6_counterexample :
    isFits fDark1 = true ∧ ¬ fDark1.exptime = 0 ∧
    get_bias [fDark1] = .ok [[none, none], [none, none]] := by
  decide

/-- Witness for C6 at the 3×3 non-bias file `fDark2`. -/
theorem c6_silent_nan_witness :
    ([fDark2].find? isFits = some fDark2 ∧
      ∀ f ∈ [fDark2], isFits f = true → ¬ f.exptime = 0) ∧
    get_bias [fDark2] = .ok (List.replicate (numCols fDark2.data - fDark2.cover)
      (List.replicate (fDark2.data.length - fDark2.rover) (none : Option ℚ))) :=
  ⟨⟨by decide, by decide⟩, c6_amended_silent_nan [fDark2] fDark2 (by decide) (by decide)⟩

/-! ## C8: flat normalization yields minimum 1 only for a positive minimum -/

/-- Dividing a masked array by a scalar divides its unmasked values. -/
theorem maskedVals_sdiv (m : Mat) (mask : List (List Bool)) (k : ℚ) :
    maskedVals (sdiv m k) mask = (maskedVals m mask).map (· / k) := by
  unfold maskedVals sdiv
  rw [← List.map_flatten, List.zip_map_left, List.filterMap_map, List.map_filterMap]
  congr 1
  funext p
  cases p with
  | mk x b =>
    by_cases hb : b = true
    · simp [hb, Prod.map]
    · simp [hb, Prod.map]

/-- Minimum of a list divided by a positive scalar. -/
theorem listMin_map_div (k : ℚ) (hk : 0 < k) (l : List ℚ) :
    listMin (l.map (· / k)) = listMin l / k := by
  cases l with
  | nil => simp [listMin]
  | cons x xs =>
    show (xs.map (· / k)).foldl min (x / k) = xs.foldl min x / k
    induction xs generalizing x with
    | nil => rfl
    | cons y t ih =>
      show (t.map (· / k)).foldl min (min (x / k) (y / k)) = _
      rw [min_div_div_right (le_of_lt hk), ih]
      rfl

/-- Claim C8 amended: each corrected flat frame
(`((data − bias)/EXPTIME) − dark`) is divided by its own mask-aware
minimum before accumulation, and when that minimum is positive the
normalized frame's (unmasked) minimum is exactly 1.  (When the
corrected minimum is zero or negative — possible since bias and dark
subtraction can produce negative pixels — the property fails.) -/
theorem c8_amended_min_one_when_positive (f : FitsFile) (bias dark : Mat)
    (hpos : 0 < aminFlat f bias dark) :
    listMin (maskedVals (flatNorm f bias dark)
      (sigmaClipMask 5 (corrFlat f bias dark))) = 1 := by
  unfold flatNorm
  rw [maskedVals_sdiv, listMin_map_div _ hpos]
  show aminFlat f bias dark / aminFlat f bias dark = 1
  exact div_self (ne_of_gt hpos)

/-- Witness for C8: the flat frame `flatPos` (corrected data
`[[2,4],[6,8]]`, nothing masked) has minimum 2 > 0 and its normalized
frame has minimum exactly 1. -/
theorem c8_min_one_witness :
    0 < aminFlat flatPos z22 z22 ∧
    listMin (maskedVals (flatNorm flatPos z22 z22)
      (sigmaClipMask 5 (corrFlat flatPos z22 z22))) = 1 := by
  have hT : overTrim flatPos = [[2, 4], [6, 8]] := by decide
  have he : flatPos.exptime = 1 := rfl
  have hc : corrFlat flatPos z22 z22 = [[2, 4], [6, 8]] := by
    norm_num [corrFlat, hT, he, msub, sdiv, z22]
  have hm : sigmaClipMask 5 [[2, 4], [6, 8]] = [[false, false], [false, false]] := by
    norm_num [sigmaClipMask, clipStep, maskedVals, listMedian, listMean, listVar,
      rsort, insSorted, List.filterMap_cons]
  have ha : aminFlat flatPos z22 z22 = 2 := by
    unfold aminFlat
    rw [hc, hm]
    norm_num [maskedVals, listMin, List.filterMap_cons, min_def]
  have hpos : 0 < aminFlat flatPos z22 z22 := by rw [ha]; norm_num
  exact ⟨hpos, c8_amended_min_one_when_positive flatPos z22 z22 hpos⟩

/-- Claim C8 counterexample: the flat frame `flatNeg` has corrected
data `[[-2,10],[3,4]]` with minimum −2; the minimum-normalized frame is
`[[1,-5],[-3/2,-2]]`, whose minimum is −5, not 1. -/
theorem c8_counterexample :
    aminFlat flatNeg z22 z22 = -2 ∧
    listMin (maskedVals (flatNorm flatNeg z22 z22)
      (sigmaClipMask 5 (corrFlat flatNeg z22 z22))) = -5 ∧
    ¬ ((-5 : ℚ) = 1) := by
  have hT : overTrim flatNeg = [[-2, 10], [3, 4]] := by decide
  have he : flatNeg.exptime = 1 := rfl
  have hc : corrFlat flatNeg z22 z22 = [[-2, 10], [3, 4]] := by
    norm_num [corrFlat, hT, he, msub, sdiv, z22]
  have hm : sigmaClipMask 5 [[-2, 10], [3, 4]] = [[false, false], [false, false]] := by
    norm_num [sigmaClipMask, clipStep, maskedVals, listMedian, listMean, listVar,
      rsort, insSorted, List.filterMap_cons]
  have ha : aminFlat flatNeg z22 z22 = -2 := by
    unfold aminFlat
    rw [hc, hm]
    norm_num [maskedVals, listMin, List.filterMap_cons, min_def]
  refine ⟨ha, ?_, by norm_num⟩
  unfold flatNorm aminFlat at ha ⊢
  rw [hc, hm] at ha ⊢
  rw [ha]
  norm_num [sdiv, maskedVals, listMin, List.filterMap_cons, min_def]

/-! ## C5: a sigma-clipped outlier still contributes to the master -/

set_option maxHeartbeats 4000000 in
set_option maxRecDepth 8000 in
/-- Claim C5 (code_bug evaluation): in `outl66` the injected pixel
(value 1000, the others 1) lies farther than 5 standard deviations
from the frame mean, and `sigma_clip(data, 5)` does mask it; but the
in-place accumulation `master_bias += data` writes the masked array's
raw buffer into the plain-ndarray accumulator, so the outlier's raw
value is added anyway: the master built from `[fBiasA, fBiasOut]`
carries `(1 + 1000)/2 = 500.5` at that pixel, while the master built
from the same frames without the outlier (`[fBiasA, fBiasB]`) carries
1 — the two masters do not match.  The code's own docstring, "Outliers
past five standard deviations of the mean are removed before all bias
frames are averaged", is violated. -/
theorem c5_outlier_leaks_into_master :
    25 * listVar outl66.flatten < (1000 - listMean outl66.flatten) ^ 2 ∧
    ((sigmaClipMask 5 outl66)[0]?.getD [])[0]?.getD false = true ∧
    biasEntry (get_bias [fBiasA, fBiasOut]) 0 0 = some (some (1001 / 2)) ∧
    biasEntry (get_bias [fBiasA, fBiasB]) 0 0 = some (some 1) ∧
    ¬ ((1001 / 2 : ℚ) = 1) := by
  have hA : isFits fBiasA = true := by decide
  have hB : isFits fBiasB = true := by decide
  have hO : isFits fBiasOut = true := by decide
  have hqA : fBiasA.exptime = 0 := rfl
  have hqB : fBiasB.exptime = 0 := rfl
  have hqO : fBiasOut.exptime = 0 := rfl
  have hTA : overTrim fBiasA = ones66 := by decide
  have hTB : overTrim fBiasB = ones66 := by decide
  have hTO : overTrim fBiasOut = outl66 := by decide
  have hEO : empty_master [fBiasA, fBiasOut] = some (zeros 6 6) := by decide
  have hEB : empty_master [fBiasA, fBiasB] = some (zeros 6 6) := by decide
  refine ⟨?_, ?_, ?_, ?_, by norm_num⟩
  · norm_num [outl66, listVar, listMean, List.replicate]
  · norm_num [sigmaClipMask, clipStep, maskedVals, listMedian, listMean, listVar,
      rsort, insSorted, outl66, List.replicate, List.filterMap_cons]
  · norm_num [get_bias, hA, hO, hqA, hqO, hTA, hTO, hEO, ones66, outl66, biasEntry,
      madd, zeros, List.replicate]
  · norm_num [get_bias, hA, hB, hqA, hqB, hTA, hTB, hEB, ones66, biasEntry,
      madd, zeros, List.replicate]
